import Mathlib

/-!
# Request context of a cluster node (`cluster/node/request.go`)

A shallow embedding of the `request` type of package `node` and of the
methods defined on it, followed by theorems about version-guarded recycling,
the `Task` finalizers, reply routing, cloning, the binding passthroughs and
`Parse`.

Conventions of the embedding:

* Go's `error` is `Option Error`, `nil` being `none`.
* `int32` and `int64` values are integers; the only arithmetic in the file,
  `atomic.Int32.Add`, wraps explicitly to the 32-bit two's complement range.
* The collaborators (proxy, scheduler, codec, encryptor, copier) are records
  of result functions; every method returns, next to its result, the list of
  collaborator calls it made, in order.
* Callbacks registered with `Defer` are named by numbers; invoking one is
  recorded in the trace of the world.
-/

namespace node

/-! ## Values of the packages the file imports -/

/-- Values of Go's `error` that the file distinguishes. -/
inductive Error where
  | ErrIllegalOperation
  | other (code : Nat)
  deriving DecidableEq, Repr

/-- A `context.Context`: the background context or some other scope. -/
inductive Ctx where
  | Background
  | scope (id : Nat)
  deriving DecidableEq, Repr

/-- The `session.Kind` of a push target. -/
inductive SessionKind where
  | Conn
  | User
  deriving DecidableEq, Repr

/-- The dynamic value held by `Message.Data` (an `interface{}`): a byte slice
or a value of some other type. -/
inductive Data where
  | bytes (b : List Nat)
  | typed (v : Nat)
  deriving DecidableEq, Repr

/-- The `cluster.Message` envelope. -/
structure Message where
  Seq : Int
  Route : Int
  Data : Data
  deriving DecidableEq, Repr

/-- The `cluster.PushArgs` record. -/
structure PushArgs where
  GID : String
  Kind : SessionKind
  Target : Int
  Message : Message
  deriving DecidableEq, Repr

/-- The `cluster.DeliverArgs` record. -/
structure DeliverArgs where
  NID : String
  UID : Int
  Message : Message
  deriving DecidableEq, Repr

/-- A handle on a local actor, as returned by the scheduler. -/
structure Actor where
  handle : Nat
  deriving DecidableEq, Repr

/-- One call made to a collaborator. -/
inductive Call where
  | Push (ctx : Ctx) (args : PushArgs)
  | Deliver (ctx : Ctx) (args : DeliverArgs)
  | BindGate (ctx : Ctx) (gid : String) (cid uid : Int)
  | UnbindGate (ctx : Ctx) (uid : Int)
  | BindNode (ctx : Ctx) (uid : Int)
  | UnbindNode (ctx : Ctx) (uid : Int)
  | doLoad (pid : String)
  | actorDeliver (actor : Actor) (uid : Int) (message : Message)
  | Decrypt (msg : List Nat)
  | Unmarshal (data : List Nat) (v : Nat)
  | CopyWithOption (v : Nat) (from_ : Data)
  deriving DecidableEq, Repr

/-- The cluster proxy `r.node.proxy`: the result of each of its methods. -/
structure Proxy where
  Push : Ctx → PushArgs → Option Error
  Deliver : Ctx → DeliverArgs → Option Error
  BindGate : Ctx → String → Int → Int → Option Error
  UnbindGate : Ctx → Int → Option Error
  BindNode : Ctx → Int → Option Error
  UnbindNode : Ctx → Int → Option Error

/-- The actor scheduler `r.node.scheduler`: actor lookup by id, and the
result of `Deliver` on an actor it returned. -/
structure Scheduler where
  doLoad : String → Option Actor
  actorDeliver : Actor → Int → Message → Option Error

/-- The encryptor strategy: the `(data, err)` pair of `Decrypt`. -/
structure Encryptor where
  Decrypt : List Nat → List Nat × Option Error

/-- The codec strategy: `Unmarshal data v` gives the error and the target
as the codec leaves it. -/
structure Codec where
  Unmarshal : List Nat → Nat → Option Error × Nat

/-- The options `r.node.opts` that the file reads. -/
structure Options where
  id : String
  encryptor : Option Encryptor
  codec : Codec

/-- The owning `Node`, as far as `request.go` reads it. Its `reqPool` is
mutable and lives in `World`. -/
structure Node where
  opts : Options
  proxy : Proxy
  scheduler : Scheduler

/-- The library call `copier.CopyWithOption v from_ opt` with the deep-copy
option: the error and the target as the copy leaves it. -/
structure Copier where
  CopyWithOption : Nat → Data → Option Error × Nat

/-! ## `chains.Chain` -/

/-- Modelled from the spec: the cleanup chain of package `core/chains`, which
is not among the sources. It is the ordered list of the callbacks not yet
fired, the head first. -/
structure Chain where
  fns : List Nat
  deriving DecidableEq, Repr

namespace Chain

/-- Modelled from the spec: `chains.NewChain`, a chain with no callback. -/
def NewChain : Chain := { fns := [] }

/-- Modelled from the spec: `AddToHead`; head insertions fire most recently
added first. -/
def AddToHead (c : Chain) (fn : Nat) : Chain := { fns := fn :: c.fns }

/-- Modelled from the spec: `AddToTail`; tail insertions fire in insertion
order, after every head insertion. -/
def AddToTail (c : Chain) (fn : Nat) : Chain := { fns := c.fns ++ [fn] }

/-- Modelled from the spec: `Cancel` discards every callback not yet fired. -/
def Cancel (_c : Chain) : Chain := { fns := [] }

/-- Modelled from the spec: `FireHead` invokes the pending callbacks from the
head on, each at most once. It returns the chain left behind and the
callbacks invoked, in order. -/
def FireHead (c : Chain) : Chain × List Nat := ({ fns := [] }, c.fns)

end Chain

/-! ## `atomic.Int32` -/

/-- The value of an integer as an `int32`: reduction to two's complement. -/
def wrapInt32 (x : Int) : Int := (x + 2147483648) % 4294967296 - 2147483648

/-- `atomic.Int32.Add`: the new value, which is both stored and returned. -/
def atomicAdd (v delta : Int) : Int := wrapInt32 (v + delta)

/-- `atomic.Int32.CompareAndSwap`: whether the swap happened, and the value
held afterwards. -/
def atomicCompareAndSwap (v old new : Int) : Bool × Int :=
  if v = old then (true, new) else (false, v)

/-! ## The request context -/

/-- The `request` struct. -/
structure request where
  node : Node
  ctx : Ctx
  gid : String
  nid : String
  pid : String
  cid : Int
  uid : Int
  message : Message
  version : Int
  chain : Option Chain

/-- An observable event: a cleanup callback was invoked, or a context was put
into the pool. -/
inductive Event where
  | fire (fn : Nat)
  | put
  deriving DecidableEq, Repr

/-- The state the methods act on: the context `r` points to, the free list of
`r.node.reqPool` (most recent first) and the events so far. -/
structure World where
  req : request
  reqPool : List request
  trace : List Event

/-- `Defer`. -/
def Defer (fn : Nat) (bottom : List Bool) (w : World) : World :=
  let chain := match w.req.chain with
    | none => Chain.NewChain
    | some c => c
  let chain := match bottom with
    | true :: _ => chain.AddToTail fn
    | _ => chain.AddToHead fn
  { w with req := { w.req with chain := some chain } }

/-- `Cancel`. -/
def Cancel (w : World) : World :=
  match w.req.chain with
  | some c => { w with req := { w.req with chain := some c.Cancel } }
  | none => w

/-- `compareVersionExecDefer`. -/
def compareVersionExecDefer (version : Int) (w : World) : World :=
  match w.req.chain with
  | some c =>
    if w.req.version = version then
      { w with
        req := { w.req with chain := some c.FireHead.1 }
        trace := w.trace ++ c.FireHead.2.map Event.fire }
    else w
  | none => w

/-- `incrVersion`: the returned version and the world afterwards. -/
def incrVersion (w : World) : Int × World :=
  let v := atomicAdd w.req.version 1
  (v, { w with req := { w.req with version := v } })

/-- `loadVersion`. -/
def loadVersion (w : World) : Int := w.req.version

/-- Modelled from the spec: the pool `r.node.reqPool`, whose declaration is
not among the sources. `Put` pushes the context onto the free list. -/
def reqPoolPut (w : World) : World :=
  { w with reqPool := w.req :: w.reqPool, trace := w.trace ++ [Event.put] }

/-- `compareVersionRecycle`. -/
def compareVersionRecycle (version : Int) (w : World) : World :=
  match atomicCompareAndSwap w.req.version version 0 with
  | (true, v) => reqPoolPut { w with req := { w.req with version := v } }
  | (false, _) => w

/-! ## Go function frames: `defer` and panics -/

/-- A statement of a function body: a `defer` of a call, or a call that
returns normally (`false`) or panics (`true`). -/
inductive Stmt where
  | deferCall (f : World → World)
  | call (f : World → World × Bool)

/-- Run the deferred calls of a frame, the most recently deferred first. -/
def runDeferred : List (World → World) → World → World
  | [], w => w
  | f :: fs, w => runDeferred fs (f w)

/-- Run a function body. `stack` holds the calls deferred so far, the most
recent first. A panic skips the rest of the body; the deferred calls run in
either case, and the flag tells whether the frame ends panicking. -/
def runFrame : List Stmt → List (World → World) → World → World × Bool
  | [], stack, w => (runDeferred stack w, false)
  | Stmt.deferCall f :: rest, stack, w => runFrame rest (f :: stack) w
  | Stmt.call f :: rest, stack, w =>
    if (f w).2 then (runDeferred stack (f w).1, true)
    else runFrame rest stack (f w).1

/-- `Task`: the world after the call and the body of the closure handed to
`task.AddTask`. -/
def Task (fn : World → World × Bool) (w : World) : World × List Stmt :=
  let version := (incrVersion w).1
  let w1 := Cancel (incrVersion w).2
  (w1, [Stmt.deferCall (compareVersionRecycle version),
        Stmt.deferCall (compareVersionExecDefer version),
        Stmt.call fn])

/-! ## Methods that read the context -/

/-- `Parse`: the error, the target `v` as it is left, and the calls made. -/
def Parse (copier : Copier) (r : request) (v : Nat) : Option Error × Nat × List Call :=
  match r.message.Data with
  | Data.typed d =>
    ((copier.CopyWithOption v (Data.typed d)).1, (copier.CopyWithOption v (Data.typed d)).2,
      [Call.CopyWithOption v (Data.typed d)])
  | Data.bytes msg =>
    if msg.length = 0 then (none, v, [])
    else
      match (if r.gid ≠ "" then r.node.opts.encryptor else none) with
      | some encryptor =>
        match (encryptor.Decrypt msg).2 with
        | some err => (some err, v, [Call.Decrypt msg])
        | none =>
          ((r.node.opts.codec.Unmarshal (encryptor.Decrypt msg).1 v).1,
            (r.node.opts.codec.Unmarshal (encryptor.Decrypt msg).1 v).2,
            [Call.Decrypt msg, Call.Unmarshal (encryptor.Decrypt msg).1 v])
      | none =>
        ((r.node.opts.codec.Unmarshal msg v).1, (r.node.opts.codec.Unmarshal msg v).2,
          [Call.Unmarshal msg v])

/-- `Clone`. The fields the composite literal leaves out (`pid`, `version`,
`chain`) take their zero values. -/
def Clone (r : request) : request :=
  { node := r.node
    gid := r.gid
    nid := r.nid
    cid := r.cid
    uid := r.uid
    ctx := Ctx.Background
    message := { Seq := r.message.Seq, Route := r.message.Route, Data := r.message.Data }
    pid := ""
    version := 0
    chain := none }

/-- `BindGate`. -/
def BindGate (r : request) (uid : List Int) : Option Error × List Call :=
  match uid with
  | u :: _ => (r.node.proxy.BindGate r.ctx r.gid r.cid u, [Call.BindGate r.ctx r.gid r.cid u])
  | [] =>
    if r.uid ≠ 0 then
      (r.node.proxy.BindGate r.ctx r.gid r.cid r.uid, [Call.BindGate r.ctx r.gid r.cid r.uid])
    else (some Error.ErrIllegalOperation, [])

/-- `UnbindGate`. -/
def UnbindGate (r : request) (uid : List Int) : Option Error × List Call :=
  match uid with
  | u :: _ => (r.node.proxy.UnbindGate r.ctx u, [Call.UnbindGate r.ctx u])
  | [] =>
    if r.uid ≠ 0 then (r.node.proxy.UnbindGate r.ctx r.uid, [Call.UnbindGate r.ctx r.uid])
    else (some Error.ErrIllegalOperation, [])

/-- `BindNode`. -/
def BindNode (r : request) (uid : List Int) : Option Error × List Call :=
  match uid with
  | u :: _ => (r.node.proxy.BindNode r.ctx u, [Call.BindNode r.ctx u])
  | [] =>
    if r.uid ≠ 0 then (r.node.proxy.BindNode r.ctx r.uid, [Call.BindNode r.ctx r.uid])
    else (some Error.ErrIllegalOperation, [])

/-- `UnbindNode`. -/
def UnbindNode (r : request) (uid : List Int) : Option Error × List Call :=
  match uid with
  | u :: _ => (r.node.proxy.UnbindNode r.ctx u, [Call.UnbindNode r.ctx u])
  | [] =>
    if r.uid ≠ 0 then (r.node.proxy.UnbindNode r.ctx r.uid, [Call.UnbindNode r.ctx r.uid])
    else (some Error.ErrIllegalOperation, [])

/-- `Reply`. -/
def Reply (r : request) (message : Message) : Option Error × List Call :=
  if r.gid ≠ "" then
    (r.node.proxy.Push r.ctx
        { GID := r.gid, Kind := SessionKind.Conn, Target := r.cid, Message := message },
      [Call.Push r.ctx
        { GID := r.gid, Kind := SessionKind.Conn, Target := r.cid, Message := message }])
  else if r.pid ≠ "" then
    match r.node.scheduler.doLoad r.pid with
    | some actor =>
      (r.node.scheduler.actorDeliver actor r.uid message,
        [Call.doLoad r.pid, Call.actorDeliver actor r.uid message])
    | none => (none, [Call.doLoad r.pid])
  else if r.nid ≠ "" then
    if r.nid = r.node.opts.id then (none, [])
    else
      (r.node.proxy.Deliver r.ctx { NID := r.nid, UID := r.uid, Message := message },
        [Call.Deliver r.ctx { NID := r.nid, UID := r.uid, Message := message }])
  else (some Error.ErrIllegalOperation, [])

/-- `Response`. -/
def Response (r : request) (message : Data) : Option Error × List Call :=
  Reply r { Route := r.message.Route, Seq := r.message.Seq, Data := message }

/-! ## The methods that write to the context -/

/-- The methods of `request` that assign to the context or to the pool. The
other methods of the file (`Parse`, `Clone`, `Reply`, `Response`, the
accessors and the passthroughs to the proxy and the scheduler) only read the
receiver. -/
inductive Op where
  | Defer (fn : Nat) (bottom : List Bool)
  | Cancel
  | compareVersionExecDefer (version : Int)
  | Task (fn : World → World × Bool)
  | incrVersion
  | loadVersion
  | compareVersionRecycle (version : Int)

/-- The world after one method call. -/
def Op.run : Op → World → World
  | Op.Defer fn bottom, w => node.Defer fn bottom w
  | Op.Cancel, w => node.Cancel w
  | Op.compareVersionExecDefer version, w => node.compareVersionExecDefer version w
  | Op.Task fn, w => (node.Task fn w).1
  | Op.incrVersion, w => (node.incrVersion w).2
  | Op.loadVersion, w => w
  | Op.compareVersionRecycle version, w => node.compareVersionRecycle version w

/-- The callbacks of the context that are still pending. -/
def pending (w : World) : List Nat :=
  match w.req.chain with
  | some c => c.fns
  | none => []

/-- The world after a run of method calls, made one after the other. -/
def runOps : List Op → World → World
  | [], w => w
  | op :: rest, w => runOps rest (op.run w)

/-- Whether a method call recycles the context in the world it is made in: it
is a `compareVersionRecycle` whose version is the current one. -/
def Op.recycles : Op → World → Bool
  | Op.compareVersionRecycle version, w => decide (w.req.version = version)
  | _, _ => false

/-- Whether no call of a run, made from the given world on, recycles the
context. -/
def noRecycle : List Op → World → Bool
  | [], _ => true
  | op :: rest, w => !op.recycles w && noRecycle rest (op.run w)

/-! ## Concrete contexts -/

/-- A proxy whose every method reports an error of its own. -/
def sampleProxy : Proxy :=
  { Push := fun _ _ => some (Error.other 1)
    Deliver := fun _ _ => some (Error.other 2)
    BindGate := fun _ _ _ _ => some (Error.other 3)
    UnbindGate := fun _ _ => some (Error.other 4)
    BindNode := fun _ _ => some (Error.other 5)
    UnbindNode := fun _ _ => some (Error.other 6) }

/-- A scheduler that knows the actor `a1` only. -/
def sampleScheduler : Scheduler :=
  { doLoad := fun pid => if pid = "a1" then some { handle := 1 } else none
    actorDeliver := fun _ _ _ => some (Error.other 7) }

/-- A node `n1` with an encryptor and a codec that overwrite the target. -/
def sampleNode : Node :=
  { opts :=
      { id := "n1"
        encryptor := some { Decrypt := fun msg => (msg, some (Error.other 8)) }
        codec := { Unmarshal := fun data _ => (some (Error.other 9), data.length) } }
    proxy := sampleProxy
    scheduler := sampleScheduler }

/-- A copier that fails and zeroes the target. -/
def sampleCopier : Copier :=
  { CopyWithOption := fun _ _ => (some (Error.other 10), 0) }

/-- A context from gateway `g1`, connection 42, with message 7 on route 100
and a payload of three bytes, not yet claimed. -/
def gatewayRequest : request :=
  { node := sampleNode, ctx := Ctx.scope 1, gid := "g1", nid := "", pid := "",
    cid := 42, uid := 0,
    message := { Seq := 7, Route := 100, Data := Data.bytes [1, 2, 3] },
    version := 0, chain := none }

/-- A context from the actor `a1` on behalf of user 9. -/
def actorRequest : request :=
  { node := sampleNode, ctx := Ctx.scope 2, gid := "", nid := "", pid := "a1",
    cid := 0, uid := 9,
    message := { Seq := 3, Route := 5, Data := Data.typed 4 },
    version := 0, chain := none }

/-- A world with the gateway context at the given version, an empty pool and
no event. -/
def worldAt (version : Int) : World :=
  { req := { gatewayRequest with version := version }, reqPool := [], trace := [] }

/-- A continuation that returns at once. -/
def returnsAtOnce : World → World × Bool := fun w => (w, false)

/-- A continuation that registers the callback 7 and then panics. -/
def defersThenPanics : World → World × Bool := fun w => (Defer 7 [] w, true)

/-- A world whose context, still unclaimed, has the callbacks 3 and 4
pending. -/
def pendingWorld : World :=
  { req := { gatewayRequest with chain := some { fns := [3, 4] } }, reqPool := [], trace := [] }

/-- The world after a first `Task` call on `pendingWorld`. -/
def firstClaim : World := (Task returnsAtOnce pendingWorld).1

/-- The world after a second `Task` call, right after the first. -/
def secondClaim : World := (Task defersThenPanics firstClaim).1

/-- Method calls made after the second `Task` call: the callback 8 is
registered and fired by the finalizer of the second call, a stale recycle is
tried, and the context is claimed a third time. -/
def laterCalls : List Op :=
  [Op.Defer 8 [], Op.compareVersionExecDefer 2, Op.compareVersionRecycle 1,
    Op.Task returnsAtOnce, Op.compareVersionRecycle 2]

/-- The world after a first `Task` call on a context of the given version. -/
def afterFirstTask (version : Int) : World := (Task returnsAtOnce (worldAt version)).1

/-- The world after a second `Task` call, right after the first. -/
def afterSecondTask (version : Int) : World :=
  (Task returnsAtOnce (afterFirstTask version)).1

/-- The world once the closure of the second `Task` call has run to its end. -/
def afterSecondClosure (version : Int) : World :=
  (runFrame (Task returnsAtOnce (afterFirstTask version)).2 []
    (afterSecondTask version)).1

/-- The world when, after the closure of the second call, the context is
claimed again by a third `Task` call and the callback 8 is registered. -/
def claimedAgain (version : Int) : World :=
  Defer 8 [] (Task returnsAtOnce (afterSecondClosure version)).1

/-! ## Version-guarded recycling -/

/-- A version other than the current one makes `compareVersionRecycle` return
the world as it found it. -/
theorem compareVersionRecycle_stale (w : World) (version : Int)
    (h : ¬ w.req.version = version) : compareVersionRecycle version w = w := by
  simp [compareVersionRecycle, atomicCompareAndSwap, h]

/-- Claim C1. For every context and every version that differs from the
context's current version, `compareVersionRecycle` changes nothing: the
version, the pool's free list and the trace are as before. -/
theorem compareVersionRecycle_mismatch_noop (w : World) (version : Int)
    (h : version ≠ w.req.version) :
    compareVersionRecycle version w = w ∧
      (compareVersionRecycle version w).req.version = w.req.version ∧
      (compareVersionRecycle version w).reqPool = w.reqPool := by
  have hw : compareVersionRecycle version w = w :=
    compareVersionRecycle_stale w version (fun e => h e.symm)
  rw [hw]
  exact ⟨rfl, rfl, rfl⟩

/-- Claim C1 at a context of version 2 and the stale version 1. -/
theorem compareVersionRecycle_mismatch_noop_witness :
    (1 : Int) ≠ (worldAt 2).req.version ∧
      compareVersionRecycle 1 (worldAt 2) = worldAt 2 ∧
      (compareVersionRecycle 1 (worldAt 2)).req.version = (worldAt 2).req.version ∧
      (compareVersionRecycle 1 (worldAt 2)).reqPool = (worldAt 2).reqPool :=
  ⟨by decide, compareVersionRecycle_mismatch_noop (worldAt 2) 1 (by decide)⟩

/-- A matching version makes `compareVersionRecycle` reset the version to 0
and put the context into the pool. -/
theorem compareVersionRecycle_match (w : World) :
    compareVersionRecycle w.req.version w =
      reqPoolPut { w with req := { w.req with version := 0 } } := by
  simp [compareVersionRecycle, atomicCompareAndSwap]

/-- Claim C2, amended. For every context and every claim ticket other than 0
that equals the current version, the first of two successive
`compareVersionRecycle` attempts resets the version to 0 and puts the context
into the pool once, and the second attempt changes nothing. -/
theorem compareVersionRecycle_twice (w : World) (version : Int)
    (hv : version = w.req.version) (h0 : version ≠ 0) :
    (compareVersionRecycle version w).req.version = 0 ∧
      (compareVersionRecycle version w).reqPool
        = { w.req with version := 0 } :: w.reqPool ∧
      (compareVersionRecycle version w).trace = w.trace ++ [Event.put] ∧
      compareVersionRecycle version (compareVersionRecycle version w)
        = compareVersionRecycle version w := by
  subst hv
  rw [compareVersionRecycle_match]
  refine ⟨rfl, rfl, rfl, ?_⟩
  have hne : ¬ (0 : Int) = w.req.version := fun e => h0 e.symm
  simp [compareVersionRecycle, atomicCompareAndSwap, reqPoolPut, hne]

/-- Claim C2, amended, at a context of version 5 and the ticket 5. -/
theorem compareVersionRecycle_twice_witness :
    (5 : Int) = (worldAt 5).req.version ∧ (5 : Int) ≠ 0 ∧
      (compareVersionRecycle 5 (worldAt 5)).req.version = 0 ∧
      (compareVersionRecycle 5 (worldAt 5)).reqPool
        = { (worldAt 5).req with version := 0 } :: (worldAt 5).reqPool ∧
      (compareVersionRecycle 5 (worldAt 5)).trace = (worldAt 5).trace ++ [Event.put] ∧
      compareVersionRecycle 5 (compareVersionRecycle 5 (worldAt 5))
        = compareVersionRecycle 5 (worldAt 5) :=
  ⟨by decide, by decide, compareVersionRecycle_twice (worldAt 5) 5 (by decide) (by decide)⟩

/-- Claim C2 as stated fails for the ticket 0. On a context of version -1,
`incrVersion` mints the ticket 0, which equals the current version, and both
of two successive `compareVersionRecycle 0` attempts put the context into the
pool; the same happens on a context that is still unclaimed. -/
theorem compareVersionRecycle_twice_ticket_zero :
    (incrVersion (worldAt (-1))).1 = 0 ∧
      (incrVersion (worldAt (-1))).2.req.version = 0 ∧
      (compareVersionRecycle 0 (incrVersion (worldAt (-1))).2).trace = [Event.put] ∧
      (compareVersionRecycle 0
        (compareVersionRecycle 0 (incrVersion (worldAt (-1))).2)).trace
        = [Event.put, Event.put] ∧
      (compareVersionRecycle 0
        (compareVersionRecycle 0 (incrVersion (worldAt (-1))).2)).reqPool.length = 2 ∧
      (compareVersionRecycle 0 (compareVersionRecycle 0 (worldAt 0))).reqPool.length = 2 := by
  decide

/-! ## The version counter -/

/-- Below the largest `int32`, adding one does not wrap. -/
theorem wrapInt32_succ (v : Int) (hlo : -2147483648 ≤ v) (hhi : v < 2147483647) :
    wrapInt32 (v + 1) = v + 1 := by
  unfold wrapInt32
  omega

/-- The value of `wrapInt32` is an `int32`. -/
theorem wrapInt32_range (x : Int) :
    -2147483648 ≤ wrapInt32 x ∧ wrapInt32 x ≤ 2147483647 := by
  unfold wrapInt32
  omega

/-- Adding one to an `int32` never gives the same `int32` back. -/
theorem wrapInt32_succ_ne (x : Int) : wrapInt32 (wrapInt32 x + 1) ≠ wrapInt32 x := by
  unfold wrapInt32
  omega

/-- `Cancel` leaves the version alone. -/
theorem Cancel_version (w : World) : (Cancel w).req.version = w.req.version := by
  unfold Cancel
  cases h : w.req.chain <;> rfl

/-- `Defer` leaves the version alone. -/
theorem Defer_version (fn : Nat) (bottom : List Bool) (w : World) :
    (Defer fn bottom w).req.version = w.req.version := rfl

/-- `compareVersionExecDefer` leaves the version alone. -/
theorem compareVersionExecDefer_version (version : Int) (w : World) :
    (compareVersionExecDefer version w).req.version = w.req.version := by
  unfold compareVersionExecDefer
  cases h : w.req.chain with
  | none => rfl
  | some c =>
    by_cases hv : w.req.version = version
    · simp [hv]
    · simp [hv]

/-- The version after `Task` is the ticket `incrVersion` minted. -/
theorem Task_version (fn : World → World × Bool) (w : World) :
    (Task fn w).1.req.version = (incrVersion w).1 := by
  show (Cancel (incrVersion w).2).req.version = (incrVersion w).1
  rw [Cancel_version]
  rfl

/-- Claim C9, amended. For every context whose version is an `int32` below
2147483647, `incrVersion` returns and stores exactly one more than the
version before the call, and every method call either leaves the version at
least as large as it was or is a `compareVersionRecycle` with the current
version, which resets it to 0. -/
theorem version_increases (w : World) (op : Op)
    (hlo : -2147483648 ≤ w.req.version) (hhi : w.req.version < 2147483647) :
    (incrVersion w).1 = w.req.version + 1 ∧
      w.req.version < (incrVersion w).1 ∧
      (incrVersion w).2.req.version = (incrVersion w).1 ∧
      (w.req.version ≤ (op.run w).req.version ∨
        (op = Op.compareVersionRecycle w.req.version ∧ (op.run w).req.version = 0)) := by
  have hincr : (incrVersion w).1 = w.req.version + 1 := wrapInt32_succ _ hlo hhi
  refine ⟨hincr, by omega, rfl, ?_⟩
  cases op with
  | Defer fn bottom => exact Or.inl (le_of_eq (Defer_version fn bottom w).symm)
  | Cancel => exact Or.inl (le_of_eq (Cancel_version w).symm)
  | compareVersionExecDefer version =>
    exact Or.inl (le_of_eq (compareVersionExecDefer_version version w).symm)
  | Task fn =>
    left
    show w.req.version ≤ (Task fn w).1.req.version
    rw [Task_version, hincr]
    omega
  | incrVersion =>
    left
    show w.req.version ≤ (incrVersion w).1
    omega
  | loadVersion => exact Or.inl (le_refl _)
  | compareVersionRecycle version =>
    by_cases hv : version = w.req.version
    · right
      subst hv
      refine ⟨rfl, ?_⟩
      show (compareVersionRecycle w.req.version w).req.version = 0
      rw [compareVersionRecycle_match]
      rfl
    · left
      show w.req.version ≤ (compareVersionRecycle version w).req.version
      rw [compareVersionRecycle_stale w version (fun e => hv e.symm)]

/-- Claim C9, amended, at a context of version 5 and a `Task` call. -/
theorem version_increases_witness :
    (-2147483648 : Int) ≤ (worldAt 5).req.version ∧
      (worldAt 5).req.version < 2147483647 ∧
      (incrVersion (worldAt 5)).1 = (worldAt 5).req.version + 1 ∧
      (worldAt 5).req.version < (incrVersion (worldAt 5)).1 ∧
      (incrVersion (worldAt 5)).2.req.version = (incrVersion (worldAt 5)).1 ∧
      ((worldAt 5).req.version ≤ ((Op.Task returnsAtOnce).run (worldAt 5)).req.version ∨
        (Op.Task returnsAtOnce = Op.compareVersionRecycle (worldAt 5).req.version ∧
          ((Op.Task returnsAtOnce).run (worldAt 5)).req.version = 0)) :=
  ⟨by decide, by decide,
    version_increases (worldAt 5) (Op.Task returnsAtOnce) (by decide) (by decide)⟩

/-- Claim C9 as stated fails at the largest `int32`: there `incrVersion`
returns -2147483648, which is not one more than the version before the call
and is smaller than it, and so does the version after a `Task` call. -/
theorem incrVersion_wraps :
    (worldAt 2147483647).req.version = 2147483647 ∧
      (incrVersion (worldAt 2147483647)).1 = -2147483648 ∧
      ¬ (worldAt 2147483647).req.version < (incrVersion (worldAt 2147483647)).1 ∧
      (incrVersion (worldAt 2147483647)).1 ≠ (worldAt 2147483647).req.version + 1 ∧
      ((Op.Task returnsAtOnce).run (worldAt 2147483647)).req.version
        < (worldAt 2147483647).req.version := by
  decide

/-! ## The finalizers of `Task` -/

/-- The events `compareVersionExecDefer` adds: the pending callbacks, when a
chain exists and the version matches. -/
theorem compareVersionExecDefer_trace (version : Int) (w : World) :
    (compareVersionExecDefer version w).trace
      = w.trace ++ (match w.req.chain with
          | some c => if w.req.version = version then c.fns.map Event.fire else []
          | none => []) := by
  unfold compareVersionExecDefer
  cases h : w.req.chain with
  | none => simp
  | some c =>
    by_cases hv : w.req.version = version
    · simp [hv, Chain.FireHead]
    · simp [hv]

/-- The events `compareVersionRecycle` adds: one put, when the version
matches. -/
theorem compareVersionRecycle_trace (version : Int) (w : World) :
    (compareVersionRecycle version w).trace
      = w.trace ++ (if w.req.version = version then [Event.put] else []) := by
  by_cases hv : w.req.version = version
  · subst hv
    rw [compareVersionRecycle_match]
    simp [reqPoolPut]
  · rw [compareVersionRecycle_stale w version hv]
    simp [hv]

/-- A stale version makes `compareVersionExecDefer` return the world as it
found it. -/
theorem compareVersionExecDefer_stale (w : World) (version : Int)
    (h : ¬ w.req.version = version) : compareVersionExecDefer version w = w := by
  unfold compareVersionExecDefer
  cases hc : w.req.chain with
  | none => rfl
  | some c => simp [h]

/-- Claim C3. For every continuation `fn`, panicking or not, and every state
`s` in which the closure submitted by `Task` starts, the closure runs `fn`,
then `compareVersionExecDefer` and then `compareVersionRecycle`, both with
the ticket that `Task` minted, and it ends panicking exactly when `fn` did.
The events it adds after those of `fn` are the pending callbacks of the
chain, if a chain exists and the version is the ticket, followed by the put
into the pool, if the version is the ticket. -/
theorem Task_closure_finalizers (fn : World → World × Bool) (w s : World) :
    (Task fn w).1.req.version = (incrVersion w).1 ∧
      runFrame (Task fn w).2 [] s
        = (compareVersionRecycle (incrVersion w).1
            (compareVersionExecDefer (incrVersion w).1 (fn s).1), (fn s).2) ∧
      (runFrame (Task fn w).2 [] s).1.trace
        = (fn s).1.trace
          ++ (match (fn s).1.req.chain with
              | some c =>
                if (fn s).1.req.version = (incrVersion w).1 then c.fns.map Event.fire else []
              | none => [])
          ++ (if (fn s).1.req.version = (incrVersion w).1 then [Event.put] else []) := by
  have hrun : runFrame (Task fn w).2 [] s
      = (compareVersionRecycle (incrVersion w).1
          (compareVersionExecDefer (incrVersion w).1 (fn s).1), (fn s).2) := by
    cases hp : (fn s).2 <;> simp [Task, runFrame, runDeferred, hp]
  refine ⟨Task_version fn w, hrun, ?_⟩
  rw [hrun]
  show (compareVersionRecycle (incrVersion w).1
      (compareVersionExecDefer (incrVersion w).1 (fn s).1)).trace = _
  rw [compareVersionRecycle_trace, compareVersionExecDefer_trace,
    compareVersionExecDefer_version]

/-- The closure of `Task` at a continuation that registers callback 7 and
panics, started right after the call: the callback fires, then the context is
put into the pool, and the panic is passed on. -/
theorem Task_closure_panicking_example :
    (runFrame (Task defersThenPanics (worldAt 0)).2 []
        (Task defersThenPanics (worldAt 0)).1).1.trace = [Event.fire 7, Event.put] ∧
      (runFrame (Task defersThenPanics (worldAt 0)).2 []
        (Task defersThenPanics (worldAt 0)).1).2 = true := by
  decide

/-- After `Cancel` no callback is pending. -/
theorem Cancel_pending (w : World) : pending (Cancel w) = [] := by
  unfold pending Cancel
  cases h : w.req.chain with
  | none => simp [h]
  | some c => simp [Chain.Cancel]

/-- `Cancel` leaves the pool alone. -/
theorem Cancel_reqPool (w : World) : (Cancel w).reqPool = w.reqPool := by
  unfold Cancel
  cases h : w.req.chain <;> rfl

/-- `Task` hands the chain it finds, if any, to `Chain.Cancel`. -/
theorem Task_chain (fn : World → World × Bool) (w : World) :
    (Task fn w).1.req.chain = w.req.chain.map Chain.Cancel := by
  show (Cancel (incrVersion w).2).req.chain = _
  unfold Cancel
  cases h : w.req.chain with
  | none =>
    have h2 : (incrVersion w).2.req.chain = none := h
    simp [h2]
  | some c =>
    have h2 : (incrVersion w).2.req.chain = some c := h
    simp [h2]

/-- After `Task` no callback is pending. -/
theorem Task_pending (fn : World → World × Bool) (w : World) :
    pending (Task fn w).1 = [] :=
  Cancel_pending (incrVersion w).2

/-- `Task` leaves the pool alone. -/
theorem Task_reqPool (fn : World → World × Bool) (w : World) :
    (Task fn w).1.reqPool = w.reqPool :=
  Cancel_reqPool (incrVersion w).2

/-- The value of `wrapInt32` differs from its argument by a multiple of
4294967296. -/
theorem wrapInt32_congr (x : Int) : ∃ m : Int, wrapInt32 x = x + 4294967296 * m :=
  ⟨-((x + 2147483648) / 4294967296), by unfold wrapInt32; omega⟩

/-- A method call that does not recycle the context adds 0 or 1 to the
version, up to a multiple of 4294967296. -/
theorem Op.run_version (op : Op) (w : World) (h : op.recycles w = false) :
    ∃ k m : Int, 0 ≤ k ∧ k ≤ 1 ∧
      (op.run w).req.version = w.req.version + k + 4294967296 * m := by
  cases op with
  | Defer fn bottom =>
    refine ⟨0, 0, by omega, by omega, ?_⟩
    show (node.Defer fn bottom w).req.version = _
    rw [Defer_version]
    omega
  | Cancel =>
    refine ⟨0, 0, by omega, by omega, ?_⟩
    show (node.Cancel w).req.version = _
    rw [Cancel_version]
    omega
  | compareVersionExecDefer version =>
    refine ⟨0, 0, by omega, by omega, ?_⟩
    show (node.compareVersionExecDefer version w).req.version = _
    rw [compareVersionExecDefer_version]
    omega
  | Task fn =>
    obtain ⟨m, hm⟩ := wrapInt32_congr (w.req.version + 1)
    refine ⟨1, m, by omega, by omega, ?_⟩
    show (node.Task fn w).1.req.version = _
    rw [Task_version]
    show wrapInt32 (w.req.version + 1) = _
    omega
  | incrVersion =>
    obtain ⟨m, hm⟩ := wrapInt32_congr (w.req.version + 1)
    refine ⟨1, m, by omega, by omega, ?_⟩
    show wrapInt32 (w.req.version + 1) = _
    omega
  | loadVersion =>
    refine ⟨0, 0, by omega, by omega, ?_⟩
    show w.req.version = _
    omega
  | compareVersionRecycle version =>
    have hne : ¬ w.req.version = version := by
      simpa [Op.recycles] using h
    refine ⟨0, 0, by omega, by omega, ?_⟩
    show (node.compareVersionRecycle version w).req.version = _
    rw [compareVersionRecycle_stale w version hne]
    omega

/-- A run of method calls none of which recycles the context adds at most
the number of calls to the version, up to a multiple of 4294967296. -/
theorem runOps_version (ops : List Op) (w : World) (h : noRecycle ops w = true) :
    ∃ k m : Int, 0 ≤ k ∧ k ≤ ops.length ∧
      (runOps ops w).req.version = w.req.version + k + 4294967296 * m := by
  induction ops generalizing w with
  | nil =>
    refine ⟨0, 0, by omega, by simp, ?_⟩
    show w.req.version = _
    omega
  | cons op rest ih =>
    have hsplit : op.recycles w = false ∧ noRecycle rest (op.run w) = true := by
      simpa [noRecycle] using h
    obtain ⟨k1, m1, hk1, hk1b, h1⟩ := Op.run_version op w hsplit.1
    obtain ⟨k2, m2, hk2, hk2b, h2⟩ := ih (op.run w) hsplit.2
    refine ⟨k1 + k2, m1 + m2, by omega, ?_, ?_⟩
    · have hl : ((op :: rest).length : Int) = (rest.length : Int) + 1 := by simp
      omega
    · show (runOps rest (op.run w)).req.version = _
      omega

/-- Claim C4, amended. When `Task` is called twice in succession, minting the
tickets `V1` and `V2`, the two tickets differ, the second call hands the
pending chain to `Cancel` and leaves no callback pending, and the finalizers
tagged `V1` change nothing in the state right after the second call. The
same holds at every later point reached from there by a run of fewer than
4294967295 method calls none of which recycles the context: the version
there is not `V1`, and the finalizers tagged `V1` neither fire a callback nor
put the context into the pool. In the state right after the second call the
finalizers of any ticket `V` other than `V2` change nothing, while
`compareVersionRecycle V2` puts the context into the pool. -/
theorem Task_twice_supersedes (fn1 fn2 : World → World × Bool) (w : World)
    (ops : List Op) (V : Int)
    (hno : noRecycle ops (Task fn2 (Task fn1 w).1).1 = true)
    (hlen : ops.length < 4294967295)
    (hV : V ≠ (Task fn2 (Task fn1 w).1).1.req.version) :
    (Task fn2 (Task fn1 w).1).1.req.version ≠ (Task fn1 w).1.req.version ∧
      (Task fn2 (Task fn1 w).1).1.req.chain = (Task fn1 w).1.req.chain.map Chain.Cancel ∧
      pending (Task fn2 (Task fn1 w).1).1 = [] ∧
      compareVersionExecDefer (Task fn1 w).1.req.version (Task fn2 (Task fn1 w).1).1
        = (Task fn2 (Task fn1 w).1).1 ∧
      compareVersionRecycle (Task fn1 w).1.req.version (Task fn2 (Task fn1 w).1).1
        = (Task fn2 (Task fn1 w).1).1 ∧
      (runOps ops (Task fn2 (Task fn1 w).1).1).req.version ≠ (Task fn1 w).1.req.version ∧
      compareVersionExecDefer (Task fn1 w).1.req.version
          (runOps ops (Task fn2 (Task fn1 w).1).1)
        = runOps ops (Task fn2 (Task fn1 w).1).1 ∧
      compareVersionRecycle (Task fn1 w).1.req.version
          (runOps ops (Task fn2 (Task fn1 w).1).1)
        = runOps ops (Task fn2 (Task fn1 w).1).1 ∧
      compareVersionExecDefer V (Task fn2 (Task fn1 w).1).1 = (Task fn2 (Task fn1 w).1).1 ∧
      compareVersionRecycle V (Task fn2 (Task fn1 w).1).1 = (Task fn2 (Task fn1 w).1).1 ∧
      (compareVersionRecycle (Task fn2 (Task fn1 w).1).1.req.version
          (Task fn2 (Task fn1 w).1).1).reqPool
        = { (Task fn2 (Task fn1 w).1).1.req with version := 0 } :: w.reqPool := by
  have h2 : (Task fn2 (Task fn1 w).1).1.req.version
      = wrapInt32 ((Task fn1 w).1.req.version + 1) := Task_version fn2 _
  have h1 : (Task fn1 w).1.req.version = wrapInt32 (w.req.version + 1) := Task_version fn1 w
  have h21 : (Task fn2 (Task fn1 w).1).1.req.version ≠ (Task fn1 w).1.req.version := by
    rw [h2, h1]
    exact wrapInt32_succ_ne (w.req.version + 1)
  have hlater : (runOps ops (Task fn2 (Task fn1 w).1).1).req.version
      ≠ (Task fn1 w).1.req.version := by
    obtain ⟨k, m, hk, hkl, hrun⟩ := runOps_version ops _ hno
    obtain ⟨m2, hm2⟩ := wrapInt32_congr ((Task fn1 w).1.req.version + 1)
    rw [hrun, h2, hm2]
    have hl : (ops.length : Int) < 4294967295 := by exact_mod_cast hlen
    omega
  have hV2 : ¬ (Task fn2 (Task fn1 w).1).1.req.version = V := fun e => hV e.symm
  refine ⟨h21, Task_chain fn2 _, Task_pending fn2 _, compareVersionExecDefer_stale _ _ h21,
    compareVersionRecycle_stale _ _ h21, hlater, compareVersionExecDefer_stale _ _ hlater,
    compareVersionRecycle_stale _ _ hlater, compareVersionExecDefer_stale _ _ hV2,
    compareVersionRecycle_stale _ _ hV2, ?_⟩
  rw [compareVersionRecycle_match]
  show _ :: (Task fn2 (Task fn1 w).1).1.reqPool = _
  rw [Task_reqPool, Task_reqPool]

/-- Claim C4, amended, on a context at version 0 with the callbacks 3 and 4
pending. The tickets are 1 and 2; after the second call nothing is pending;
the later point is reached by `laterCalls`, where the version is 3 and the
callback 8 has fired; `V` is 5. -/
theorem Task_twice_supersedes_witness :
    pending pendingWorld = [3, 4] ∧
      firstClaim.req.version = 1 ∧ secondClaim.req.version = 2 ∧
      noRecycle laterCalls secondClaim = true ∧
      laterCalls.length < 4294967295 ∧
      (5 : Int) ≠ secondClaim.req.version ∧
      (runOps laterCalls secondClaim).req.version = 3 ∧
      (runOps laterCalls secondClaim).trace = [Event.fire 8] ∧
      (secondClaim.req.version ≠ firstClaim.req.version ∧
        secondClaim.req.chain = firstClaim.req.chain.map Chain.Cancel ∧
        pending secondClaim = [] ∧
        compareVersionExecDefer firstClaim.req.version secondClaim = secondClaim ∧
        compareVersionRecycle firstClaim.req.version secondClaim = secondClaim ∧
        (runOps laterCalls secondClaim).req.version ≠ firstClaim.req.version ∧
        compareVersionExecDefer firstClaim.req.version (runOps laterCalls secondClaim)
          = runOps laterCalls secondClaim ∧
        compareVersionRecycle firstClaim.req.version (runOps laterCalls secondClaim)
          = runOps laterCalls secondClaim ∧
        compareVersionExecDefer 5 secondClaim = secondClaim ∧
        compareVersionRecycle 5 secondClaim = secondClaim ∧
        (compareVersionRecycle secondClaim.req.version secondClaim).reqPool
          = { secondClaim.req with version := 0 } :: pendingWorld.reqPool) :=
  ⟨by decide, by decide, by decide, by decide, by decide, by decide, by decide, by decide,
    Task_twice_supersedes returnsAtOnce defersThenPanics pendingWorld laterCalls 5
      (by decide) (by decide) (by decide)⟩

/-- Claim C4 as stated fails at a point after the second call at which the
version is the first ticket again. From version 0 the tickets are 1 and 2;
the closure of the second call recycles the context, which resets the
version to 0; a third `Task` call then mints 1 again, and the finalizers of
the first call, tagged 1, fire the callback registered since and put the
context into the pool. From version -1 the first ticket is 0, and the
finalizers of the first call release the context a second time as soon as
the closure of the second call has run. -/
theorem Task_stale_finalizers_act :
    (afterFirstTask 0).req.version = 1 ∧
      (afterSecondTask 0).req.version = 2 ∧
      (afterSecondClosure 0).req.version = 0 ∧
      (afterSecondClosure 0).trace = [Event.put] ∧
      (claimedAgain 0).req.version = (afterFirstTask 0).req.version ∧
      (compareVersionExecDefer (afterFirstTask 0).req.version (claimedAgain 0)).trace
        = [Event.put, Event.fire 8] ∧
      (compareVersionRecycle (afterFirstTask 0).req.version
          (compareVersionExecDefer (afterFirstTask 0).req.version (claimedAgain 0))).trace
        = [Event.put, Event.fire 8, Event.put] ∧
      (compareVersionRecycle (afterFirstTask 0).req.version
          (compareVersionExecDefer (afterFirstTask 0).req.version
            (claimedAgain 0))).reqPool.length = 2 ∧
      (afterFirstTask (-1)).req.version = 0 ∧
      (afterSecondClosure (-1)).trace = [Event.put] ∧
      (compareVersionRecycle (afterFirstTask (-1)).req.version
          (compareVersionExecDefer (afterFirstTask (-1)).req.version
            (afterSecondClosure (-1)))).trace = [Event.put, Event.put] := by
  decide

/-- A run of `incrVersion` calls from an `int32` version adds their number,
wrapping. -/
theorem runOps_incrVersion (n : Nat) (w : World)
    (hlo : -2147483648 ≤ w.req.version) (hhi : w.req.version ≤ 2147483647) :
    (runOps (List.replicate n Op.incrVersion) w).req.version
      = wrapInt32 (w.req.version + n) := by
  induction n generalizing w with
  | zero =>
    show w.req.version = _
    unfold wrapInt32
    simp only [Nat.cast_zero]
    omega
  | succ n ih =>
    rw [List.replicate_succ]
    show (runOps (List.replicate n Op.incrVersion) (incrVersion w).2).req.version = _
    have hr := wrapInt32_range (w.req.version + 1)
    rw [ih (incrVersion w).2 hr.1 hr.2]
    show wrapInt32 (wrapInt32 (w.req.version + 1) + n) = _
    unfold wrapInt32
    push_cast
    omega

/-- A run of `incrVersion` calls does not recycle the context. -/
theorem noRecycle_incrVersion (n : Nat) (w : World) :
    noRecycle (List.replicate n Op.incrVersion) w = true := by
  induction n generalizing w with
  | zero => rfl
  | succ n ih =>
    rw [List.replicate_succ]
    show (!false && noRecycle (List.replicate n Op.incrVersion) (Op.incrVersion.run w)) = true
    rw [ih]
    rfl

/-- The bound on the length of the run is needed: 4294967295 further
`incrVersion` calls after the second `Task` call, none of which recycles the
context, bring the version back to the first ticket. -/
theorem Task_ticket_returns_after_wrap :
    noRecycle (List.replicate 4294967295 Op.incrVersion) (afterSecondTask 0) = true ∧
      (runOps (List.replicate 4294967295 Op.incrVersion) (afterSecondTask 0)).req.version
        = (afterFirstTask 0).req.version := by
  refine ⟨noRecycle_incrVersion _ _, ?_⟩
  have h2 : (afterSecondTask 0).req.version = 2 := by decide
  have h1 : (afterFirstTask 0).req.version = 1 := by decide
  rw [runOps_incrVersion _ _ (by rw [h2]; omega) (by rw [h2]; omega), h2, h1]
  unfold wrapInt32
  omega

/-! ## Reply routing -/

/-- Claim C5. `Reply` is decided by the source recorded in the context, shown
on a context with one source kind set at a time. With gateway id `g` it
returns the result of the proxy's `Push` with that id, kind `Conn`, the
connection id as target and the given message, and makes that call only.
With actor id `p` it looks the actor up and, if found, returns the result of
delivering the message to it with the user id, and otherwise returns `nil`.
With the node's own id as node id it returns `nil` and calls nothing; with
another node id `n` it returns the result of the proxy's `Deliver` with that
node id, the user id and the message. With no source it returns
`ErrIllegalOperation` and calls nothing. The version, the chain and the
inbound message do not matter. -/
theorem Reply_routing (r : request) (message inbound : Message) (g p n : String)
    (version : Int) (chain : Option Chain)
    (hg : g ≠ "") (hp : p ≠ "") (hn : n ≠ "")
    (hid : r.node.opts.id ≠ "") (hother : n ≠ r.node.opts.id) :
    Reply { r with gid := g, pid := "", nid := "" } message
        = (r.node.proxy.Push r.ctx
            { GID := g, Kind := SessionKind.Conn, Target := r.cid, Message := message },
          [Call.Push r.ctx
            { GID := g, Kind := SessionKind.Conn, Target := r.cid, Message := message }]) ∧
      Reply { r with gid := "", pid := p, nid := "" } message
        = (match r.node.scheduler.doLoad p with
          | some actor =>
            (r.node.scheduler.actorDeliver actor r.uid message,
              [Call.doLoad p, Call.actorDeliver actor r.uid message])
          | none => (none, [Call.doLoad p])) ∧
      Reply { r with gid := "", pid := "", nid := r.node.opts.id } message = (none, []) ∧
      Reply { r with gid := "", pid := "", nid := n } message
        = (r.node.proxy.Deliver r.ctx { NID := n, UID := r.uid, Message := message },
          [Call.Deliver r.ctx { NID := n, UID := r.uid, Message := message }]) ∧
      Reply { r with gid := "", pid := "", nid := "" } message
        = (some Error.ErrIllegalOperation, []) ∧
      Reply { r with version := version, chain := chain, message := inbound } message
        = Reply r message := by
  refine ⟨?_, ?_, ?_, ?_, ?_, rfl⟩
  · simp [Reply, hg]
  · simp only [Reply, ne_eq, not_true_eq_false, if_false, hp, not_false_eq_true, if_true]
  · simp [Reply, hid]
  · simp [Reply, hn, hother]
  · simp [Reply]

/-- Claim C5 on the gateway context: gateway `g1`, actor `a1` (known to the
scheduler), the node's own id `n1` and the other node `n2`. -/
theorem Reply_routing_witness :
    Reply { gatewayRequest with gid := "g1", pid := "", nid := "" }
        { Seq := 1, Route := 2, Data := Data.typed 3 }
        = (some (Error.other 1),
          [Call.Push (Ctx.scope 1)
            { GID := "g1", Kind := SessionKind.Conn, Target := 42,
              Message := { Seq := 1, Route := 2, Data := Data.typed 3 } }]) ∧
      Reply { gatewayRequest with gid := "", pid := "a1", nid := "" }
        { Seq := 1, Route := 2, Data := Data.typed 3 }
        = (some (Error.other 7),
          [Call.doLoad "a1",
            Call.actorDeliver { handle := 1 } 0
              { Seq := 1, Route := 2, Data := Data.typed 3 }]) ∧
      Reply { gatewayRequest with gid := "", pid := "", nid := "n1" }
        { Seq := 1, Route := 2, Data := Data.typed 3 } = (none, []) ∧
      Reply { gatewayRequest with gid := "", pid := "", nid := "n2" }
        { Seq := 1, Route := 2, Data := Data.typed 3 }
        = (some (Error.other 2),
          [Call.Deliver (Ctx.scope 1)
            { NID := "n2", UID := 0,
              Message := { Seq := 1, Route := 2, Data := Data.typed 3 } }]) ∧
      Reply { gatewayRequest with gid := "", pid := "", nid := "" }
        { Seq := 1, Route := 2, Data := Data.typed 3 }
        = (some Error.ErrIllegalOperation, []) ∧
      Reply { gatewayRequest with version := 4, chain := some { fns := [1] },
                                  message := { Seq := 0, Route := 0, Data := Data.bytes [] } }
        { Seq := 1, Route := 2, Data := Data.typed 3 }
        = Reply gatewayRequest { Seq := 1, Route := 2, Data := Data.typed 3 } :=
  Reply_routing gatewayRequest { Seq := 1, Route := 2, Data := Data.typed 3 }
    { Seq := 0, Route := 0, Data := Data.bytes [] } "g1" "a1" "n2" 4 (some { fns := [1] })
    (by decide) (by decide) (by decide) (by decide) (by decide)

/-- Claim C6. For every context and payload, `Response` is `Reply` of the
message that echoes the inbound sequence and route and carries the payload;
on a context with gateway id `g` it returns the result of the proxy's `Push`
with that id, the connection id as target and that message, and calls nothing
else. -/
theorem Response_echoes (r : request) (payload : Data) (g : String) (hg : g ≠ "") :
    Response r payload
        = Reply r { Seq := r.message.Seq, Route := r.message.Route, Data := payload } ∧
      Response { r with gid := g } payload
        = (r.node.proxy.Push r.ctx
            { GID := g, Kind := SessionKind.Conn, Target := r.cid,
              Message := { Seq := r.message.Seq, Route := r.message.Route, Data := payload } },
          [Call.Push r.ctx
            { GID := g, Kind := SessionKind.Conn, Target := r.cid,
              Message :=
                { Seq := r.message.Seq, Route := r.message.Route, Data := payload } }]) := by
  refine ⟨rfl, ?_⟩
  simp [Response, Reply, hg]

/-- Claim C6 on the context from gateway `g1`, connection 42, with inbound
sequence 7 and route 100. -/
theorem Response_echoes_witness :
    Response gatewayRequest (Data.typed 1)
        = Reply gatewayRequest { Seq := 7, Route := 100, Data := Data.typed 1 } ∧
      Response gatewayRequest (Data.typed 1)
        = (some (Error.other 1),
          [Call.Push (Ctx.scope 1)
            { GID := "g1", Kind := SessionKind.Conn, Target := 42,
              Message := { Seq := 7, Route := 100, Data := Data.typed 1 } }]) :=
  Response_echoes gatewayRequest (Data.typed 1) "g1" (by decide)

/-! ## Clone -/

/-- What `Clone` carries over: the node, the gateway, node, connection and
user ids and the message; the clone has the background context, no chain and
version 0. -/
theorem Clone_carries (r : request) :
    (Clone r).node = r.node ∧ (Clone r).gid = r.gid ∧ (Clone r).nid = r.nid ∧
      (Clone r).cid = r.cid ∧ (Clone r).uid = r.uid ∧ (Clone r).message = r.message ∧
      (Clone r).ctx = Ctx.Background ∧ (Clone r).chain = none ∧ (Clone r).version = 0 :=
  ⟨rfl, rfl, rfl, rfl, rfl, rfl, rfl, rfl, rfl⟩

/-- The actor id of every clone is empty. -/
theorem Clone_pid (r : request) : (Clone r).pid = "" := rfl

/-- Claim C7, on the code. On the context from actor `a1` the clone has an
empty actor id, so `Reply` on the original looks the actor up and delivers to
it, while `Reply` on the clone returns `ErrIllegalOperation` and calls
nothing: the clone does not echo the actor id and does not take the routing
branch of the original. -/
theorem Clone_drops_actor_source :
    actorRequest.pid = "a1" ∧ (Clone actorRequest).pid = "" ∧
      Reply actorRequest { Seq := 1, Route := 2, Data := Data.typed 3 }
        = (some (Error.other 7),
          [Call.doLoad "a1",
            Call.actorDeliver { handle := 1 } 9
              { Seq := 1, Route := 2, Data := Data.typed 3 }]) ∧
      Reply (Clone actorRequest) { Seq := 1, Route := 2, Data := Data.typed 3 }
        = (some Error.ErrIllegalOperation, []) := by
  decide

/-! ## Binding passthroughs -/

/-- Claim C8. Each of `BindGate`, `UnbindGate`, `BindNode` and `UnbindNode`
calls the proxy with the first explicit user id when one is given, whatever
the user id of the context; with none given and the non-zero user id `n` in
the context it calls the proxy with `n`; in both cases it makes that one call
and returns its result. With none given and user id 0 it returns
`ErrIllegalOperation` and calls nothing. -/
theorem binding_passthroughs (r : request) (u : Int) (us : List Int) (n : Int)
    (hn : n ≠ 0) :
    (BindGate r (u :: us)
        = (r.node.proxy.BindGate r.ctx r.gid r.cid u, [Call.BindGate r.ctx r.gid r.cid u]) ∧
      BindGate { r with uid := n } []
        = (r.node.proxy.BindGate r.ctx r.gid r.cid n, [Call.BindGate r.ctx r.gid r.cid n]) ∧
      BindGate { r with uid := 0 } [] = (some Error.ErrIllegalOperation, [])) ∧
    (UnbindGate r (u :: us) = (r.node.proxy.UnbindGate r.ctx u, [Call.UnbindGate r.ctx u]) ∧
      UnbindGate { r with uid := n } []
        = (r.node.proxy.UnbindGate r.ctx n, [Call.UnbindGate r.ctx n]) ∧
      UnbindGate { r with uid := 0 } [] = (some Error.ErrIllegalOperation, [])) ∧
    (BindNode r (u :: us) = (r.node.proxy.BindNode r.ctx u, [Call.BindNode r.ctx u]) ∧
      BindNode { r with uid := n } []
        = (r.node.proxy.BindNode r.ctx n, [Call.BindNode r.ctx n]) ∧
      BindNode { r with uid := 0 } [] = (some Error.ErrIllegalOperation, [])) ∧
    (UnbindNode r (u :: us) = (r.node.proxy.UnbindNode r.ctx u, [Call.UnbindNode r.ctx u]) ∧
      UnbindNode { r with uid := n } []
        = (r.node.proxy.UnbindNode r.ctx n, [Call.UnbindNode r.ctx n]) ∧
      UnbindNode { r with uid := 0 } [] = (some Error.ErrIllegalOperation, [])) := by
  refine ⟨⟨rfl, ?_, ?_⟩, ⟨rfl, ?_, ?_⟩, ⟨rfl, ?_, ?_⟩, ⟨rfl, ?_, ?_⟩⟩
  · simp [BindGate, hn]
  · simp [BindGate]
  · simp [UnbindGate, hn]
  · simp [UnbindGate]
  · simp [BindNode, hn]
  · simp [BindNode]
  · simp [UnbindNode, hn]
  · simp [UnbindNode]

/-- Claim C8 on the actor context, whose user id is 9: the explicit id 5 wins
over it, and 9 is used when no id is given. -/
theorem binding_passthroughs_witness :
    (BindGate actorRequest [5, 6]
        = (some (Error.other 3), [Call.BindGate (Ctx.scope 2) "" 0 5]) ∧
      BindGate { actorRequest with uid := 9 } []
        = (some (Error.other 3), [Call.BindGate (Ctx.scope 2) "" 0 9]) ∧
      BindGate { actorRequest with uid := 0 } [] = (some Error.ErrIllegalOperation, [])) ∧
    (UnbindGate actorRequest [5, 6]
        = (some (Error.other 4), [Call.UnbindGate (Ctx.scope 2) 5]) ∧
      UnbindGate { actorRequest with uid := 9 } []
        = (some (Error.other 4), [Call.UnbindGate (Ctx.scope 2) 9]) ∧
      UnbindGate { actorRequest with uid := 0 } [] = (some Error.ErrIllegalOperation, [])) ∧
    (BindNode actorRequest [5, 6]
        = (some (Error.other 5), [Call.BindNode (Ctx.scope 2) 5]) ∧
      BindNode { actorRequest with uid := 9 } []
        = (some (Error.other 5), [Call.BindNode (Ctx.scope 2) 9]) ∧
      BindNode { actorRequest with uid := 0 } [] = (some Error.ErrIllegalOperation, [])) ∧
    (UnbindNode actorRequest [5, 6]
        = (some (Error.other 6), [Call.UnbindNode (Ctx.scope 2) 5]) ∧
      UnbindNode { actorRequest with uid := 9 } []
        = (some (Error.other 6), [Call.UnbindNode (Ctx.scope 2) 9]) ∧
      UnbindNode { actorRequest with uid := 0 } [] = (some Error.ErrIllegalOperation, [])) :=
  binding_passthroughs actorRequest 5 [6] 9 (by decide)

/-! ## Parse -/

/-- Claim C10. For every context whose payload is a byte slice of length 0,
whatever its source and its node's encryptor, `Parse` returns `nil`, leaves
the target as it was and calls neither the encryptor nor the codec. -/
theorem Parse_empty_bytes (copier : Copier) (r : request) (v : Nat) (msg : List Nat)
    (hd : r.message.Data = Data.bytes msg) (hl : msg.length = 0) :
    Parse copier r v = (none, v, []) := by
  unfold Parse
  rw [hd]
  simp [hl]

/-- Claim C10 on the gateway context, whose node has an encryptor, with the
payload replaced by an empty byte slice. -/
theorem Parse_empty_bytes_witness :
    Parse sampleCopier
      { gatewayRequest with message := { Seq := 7, Route := 100, Data := Data.bytes [] } }
      11 = (none, 11, []) :=
  Parse_empty_bytes sampleCopier
    { gatewayRequest with message := { Seq := 7, Route := 100, Data := Data.bytes [] } }
    11 [] rfl rfl

/-- On the gateway context as it is, with three bytes of payload, `Parse`
does call the encryptor. -/
theorem Parse_nonempty_example :
    Parse sampleCopier gatewayRequest 11
      = (some (Error.other 8), 11, [Call.Decrypt [1, 2, 3]]) := by
  decide

end node
